import Mathlib

/-!
Verification of the guard and validity-checking engine of the
safe-transmute library: the logic deciding, for a byte slice and a
target type, whether a reinterpretation is permitted, under which
truncation policy, and which violation caused a rejection.

The repository sources available here are only the declaration
indexes (`sidebar-items.js`) of the modules `trivial` and `to_bytes`;
the bodies of the guard engine, the alignment checker, the boolean
validity checker and the façade functions are absent.  Every
definition below is therefore modelled from the specification, as its
doc comment records.  A value of a trivially transmutable type of
size `S` is identified with its byte pattern, a list of `S` bytes —
that identification is the very definition of trivial
transmutability ("every bit pattern of my representation is a valid
value").
-/

namespace SafeTransmute

/-- Modelled from the spec: the closed set of guard policies of the
guard engine (spec 4.4) — `exact` is the pedantic policy, `atLeast`
the permissive one, `singleValue` the specialization of `exact` to a
single scalar.  The bodies of the guard types are missing from the
sources. -/
inductive GuardPolicy where
  | exact
  | atLeast
  | singleValue
deriving DecidableEq

/-- Modelled from the spec: the error taxonomy (spec 7).  `unaligned`
carries the number of leading bytes to skip; `unalignedInsufficient`
is the single combined diagnosis of a buffer that is misaligned and,
after realignment, too short for one element (spec 4.4/4.5);
`notEnoughBytes` and `sizeMismatch` carry the byte counts of the
sizing violation; `invalidValue` carries the offending byte's offset
and raw value.  The error module's body is missing from the
sources. -/
inductive TransmuteError where
  | unaligned (offsetToNextValid : Nat)
  | unalignedInsufficient (offsetToNextValid : Nat) (required : Nat) (actual : Nat)
  | notEnoughBytes (required : Nat) (actual : Nat)
  | sizeMismatch (actual : Nat) (elementSize : Nat) (delta : Nat)
  | invalidValue (offset : Nat) (value : Nat)
deriving DecidableEq

/-- Offset payload of the two unaligned-kind errors: both report how
many leading bytes would have to be skipped to reach the next
correctly aligned address. -/
def TransmuteError.unalignedOffset : TransmuteError → Option Nat
  | .unaligned k => some k
  | .unalignedInsufficient k _ _ => some k
  | _ => none

/-- Modelled from the spec: outcome of the alignment checker
(spec 4.2).  The `align` module's body is missing from the
sources. -/
inductive AlignmentOutcome where
  | aligned
  | misaligned (offsetToNextValid : Nat)
deriving DecidableEq

/-- Modelled from the spec: the alignment checker (spec 4.2), a pure
function of the start address and the target type's alignment (a
power of two).  It reports `aligned` when the address is a multiple
of the alignment, and otherwise the number of leading bytes to skip
to the next valid offset. -/
def check_alignment (addr alignment : Nat) : AlignmentOutcome :=
  if addr % alignment = 0 then .aligned
  else .misaligned (alignment - addr % alignment)

/-- Modelled from the spec: the guard engine's size arithmetic
(spec 4.4).  Given buffer length `L`, element size `S` and a policy,
it computes `count = L / S` and `remainder = L % S` and accepts or
rejects: `exact` needs at least one element and no remainder (an
empty buffer is `notEnoughBytes`, a nonzero remainder reports the
deficit to the next element boundary); `atLeast` accepts a zero
length with zero elements and otherwise needs at least one element;
`singleValue` needs the length to equal `S` exactly, reporting the
surplus otherwise.  On success it returns the element count.  The
`guard` module's body is missing from the sources. -/
def check_length (L S : Nat) (policy : GuardPolicy) : Except TransmuteError Nat :=
  match policy with
  | .exact =>
      if L < S then .error (.notEnoughBytes S L)
      else if L % S ≠ 0 then .error (.sizeMismatch L S (S - L % S))
      else .ok (L / S)
  | .atLeast =>
      if L = 0 then .ok 0
      else if L < S then .error (.notEnoughBytes S L)
      else .ok (L / S)
  | .singleValue =>
      if L < S then .error (.notEnoughBytes S L)
      else if L ≠ S then .error (.sizeMismatch L S (L - S))
      else .ok 1

/-- Consecutive extraction of `n` groups of `S` bytes from the front
of a byte list: the element values produced by a successful
many-element transmutation. -/
def chunksGo (S : Nat) : Nat → List Nat → List (List Nat)
  | 0, _ => []
  | n + 1, l => l.take S :: chunksGo S n (l.drop S)

/-- All whole `S`-byte elements at the front of a byte list; a
trailing group of fewer than `S` bytes is left unused. -/
def chunksOf (S : Nat) (l : List Nat) : List (List Nat) :=
  chunksGo S (l.length / S) l

/-- Modelled from the spec: the many-element transmutation façade
(spec 4.5/6) for a trivially transmutable element type of size `S`
on an aligned borrowed buffer — run the guard engine's size
arithmetic, then expose the whole elements that fit.  The bodies of
`transmute_trivial_many` / `safe_transmute_many` are missing from
the sources. -/
def transmute_many (S : Nat) (bytes : List Nat) (policy : GuardPolicy) :
    Except TransmuteError (List (List Nat)) :=
  match check_length bytes.length S policy with
  | .error e => .error e
  | .ok _ => .ok (chunksOf S bytes)

/-- Modelled from the spec: the pedantic many-element wrapper
(`safe_transmute_many_pedantic`, `guarded_transmute_pod_many_pedantic`
in the source index) forwards to the engine with the `exact`
policy. -/
def safe_transmute_many_pedantic (S : Nat) (bytes : List Nat) :
    Except TransmuteError (List (List Nat)) :=
  transmute_many S bytes .exact

/-- Modelled from the spec: the permissive many-element wrapper
(`safe_transmute_many_permissive`, `guarded_transmute_pod_many_permissive`
in the source index) forwards to the engine with the `atLeast`
policy. -/
def safe_transmute_many_permissive (S : Nat) (bytes : List Nat) :
    Except TransmuteError (List (List Nat)) :=
  transmute_many S bytes .atLeast

/-- Modelled from the spec: the single-value transmutation façade
(`safe_transmute_one`, `transmute_trivial` in the source index) —
run the guard engine on the length, then view the first `S` bytes as
the one produced value. -/
def transmute_one (S : Nat) (bytes : List Nat) (policy : GuardPolicy) :
    Except TransmuteError (List Nat) :=
  match check_length bytes.length S policy with
  | .error e => .error e
  | .ok _ => .ok (bytes.take S)

/-- Modelled from the spec: the to-bytes direction for one value
(`safe_transmute_one_to_bytes`, `guarded_transmute_to_bytes` in the
source index) — view a value as its raw bytes; total, no error
path.  A value of a trivially transmutable type is identified with
its byte pattern. -/
def transmute_to_bytes (v : List Nat) : List Nat := v

/-- Concatenation of the byte patterns of a list of values. -/
def concat_bytes : List (List Nat) → List Nat
  | [] => []
  | u :: us => u ++ concat_bytes us

/-- Modelled from the spec: `guarded_transmute_to_bytes` (source
index) — a single value of an arbitrary type viewed as its bytes;
total. -/
def guarded_transmute_to_bytes (v : List Nat) : List Nat := v

/-- Modelled from the spec: `guarded_transmute_to_bytes_many`
(source index) — a slice of values viewed as the concatenation of
their bytes; total. -/
def guarded_transmute_to_bytes_many (vs : List (List Nat)) : List Nat :=
  concat_bytes vs

/-- Modelled from the spec: `guarded_transmute_to_bytes_vec` (source
index) — a vector of values converted to the vector of their bytes;
total.  (The in-place reuse of the allocation is a memory-layout
fact outside this embedding; the byte contents are what is modelled.) -/
def guarded_transmute_to_bytes_vec (vs : List (List Nat)) : List Nat :=
  concat_bytes vs

/-- Modelled from the spec: the full façade on a buffer with a known
start address (spec 4.5).  An aligned buffer goes through the size
guard and produces its elements.  A misaligned buffer fails
terminally: the usable length after realignment is `L - k` where `k`
is the offset to the next valid address, and when even one element
does not fit in that reduced length the failure is the single
combined unaligned-plus-insufficient-data diagnosis (spec 4.4
interaction rule, spec 4.5 AlignmentCheck), otherwise a plain
`unaligned` error carrying the offset (spec 8, alignment
property). -/
def transmute_many_at (addr alignment S : Nat) (bytes : List Nat) (policy : GuardPolicy) :
    Except TransmuteError (List (List Nat)) :=
  match check_alignment addr alignment with
  | .aligned => transmute_many S bytes policy
  | .misaligned k =>
      if bytes.length - k < S then
        .error (.unalignedInsufficient k S (bytes.length - k))
      else .error (.unaligned k)

/-- Modelled from the spec: legality of a byte as a single-byte
boolean (spec 4.3) — exactly the two encodings `0` (false) and `1`
(true) are legal.  The `bool` module's body is missing from the
sources. -/
def bool_legal (b : Nat) : Bool := b == 0 || b == 1

/-- Modelled from the spec: the validity checker's scan (spec 4.3) —
inspect the candidate bytes left to right, rejecting at the first
byte outside the legal set with its offset and raw value. -/
def check_bool_bytes : List Nat → Nat → Except TransmuteError Unit
  | [], _ => .ok ()
  | b :: rest, i =>
      if bool_legal b then check_bool_bytes rest (i + 1)
      else .error (.invalidValue i b)

/-- Modelled from the spec: the many-boolean transmutation façade —
run the validity scan over the buffer and, on success, expose each
byte as the boolean it encodes. -/
def transmute_bool_many (bytes : List Nat) : Except TransmuteError (List Bool) :=
  match check_bool_bytes bytes 0 with
  | .error e => .error e
  | .ok _ => .ok (bytes.map (fun b => b == 1))

theorem chunksGo_length (S : Nat) : ∀ (n : Nat) (l : List Nat), (chunksGo S n l).length = n
  | 0, _ => rfl
  | n + 1, l => by simp [chunksGo, chunksGo_length S n]

theorem chunksOf_length (S : Nat) (l : List Nat) :
    (chunksOf S l).length = l.length / S :=
  chunksGo_length S (l.length / S) l

/-- C1 counterexample: the claim "transmute_many(B, Exact) succeeds
iff len(B) % S == 0" fails at the empty buffer with S = 2 — the
length 0 is divisible by 2, yet the pedantic call fails with
`notEnoughBytes`, as the spec's boundary rule for empty buffers
demands. -/
theorem transmute_many_exact_empty_counterexample :
    safe_transmute_many_pedantic 2 [] = .error (.notEnoughBytes 2 0) ∧ (0 : Nat) % 2 = 0 :=
  ⟨rfl, rfl⟩

/-- C1 (amended): for element size S > 0, the pedantic (Exact)
many-element transmutation succeeds iff len(B) % S == 0 and
len(B) ≥ S (an empty buffer fails with NotEnoughBytes), and on
success returns exactly len(B)/S elements. -/
theorem transmute_many_exact_characterization (S : Nat) (bytes : List Nat) (h : 0 < S) :
    ((∃ vs, safe_transmute_many_pedantic S bytes = .ok vs) ↔
      (bytes.length % S = 0 ∧ S ≤ bytes.length))
  ∧ ∀ vs, safe_transmute_many_pedantic S bytes = .ok vs → vs.length = bytes.length / S := by
  unfold safe_transmute_many_pedantic transmute_many check_length
  by_cases h1 : bytes.length < S
  · simp only [h1, if_true, ne_eq]
    simp
    omega
  · by_cases h2 : bytes.length % S = 0
    · simp only [h1, if_false, h2, ne_eq, not_true_eq_false]
      simp [chunksOf_length]
      omega
    · simp only [h1, if_false, h2, ne_eq, not_false_eq_true, if_true]
      simp

/-- C1 witness: the amended characterization evaluated at S = 2 and
a four-byte buffer. -/
theorem transmute_many_exact_characterization_witness :
    ((∃ vs, safe_transmute_many_pedantic 2 [1, 2, 3, 4] = .ok vs) ↔
      (([1, 2, 3, 4] : List Nat).length % 2 = 0 ∧ 2 ≤ ([1, 2, 3, 4] : List Nat).length))
  ∧ ∀ vs, safe_transmute_many_pedantic 2 [1, 2, 3, 4] = .ok vs →
      vs.length = ([1, 2, 3, 4] : List Nat).length / 2 :=
  transmute_many_exact_characterization 2 [1, 2, 3, 4] (by decide)

/-- C2 counterexample: the claim "transmute_many(B, AtLeast)
succeeds iff len(B) ≥ S" fails at the empty buffer with S = 2 — the
length 0 is smaller than 2, yet the permissive call succeeds with
zero elements, as the spec's tie-break rule for empty buffers
demands. -/
theorem transmute_many_atLeast_empty_counterexample :
    safe_transmute_many_permissive 2 [] = .ok [] ∧ ([] : List Nat).length < 2 :=
  ⟨rfl, by decide⟩

/-- C2 (amended): for element size S > 0, the permissive (AtLeast)
many-element transmutation succeeds iff len(B) ≥ S or len(B) = 0, on
success returns floor(len(B)/S) elements, and never errors on a
nonzero remainder — any buffer with at least S bytes succeeds
whatever the remainder. -/
theorem transmute_many_atLeast_characterization (S : Nat) (bytes : List Nat) (h : 0 < S) :
    ((∃ vs, safe_transmute_many_permissive S bytes = .ok vs) ↔
      (S ≤ bytes.length ∨ bytes.length = 0))
  ∧ (∀ vs, safe_transmute_many_permissive S bytes = .ok vs → vs.length = bytes.length / S)
  ∧ (S ≤ bytes.length → ∃ vs, safe_transmute_many_permissive S bytes = .ok vs) := by
  unfold safe_transmute_many_permissive transmute_many check_length
  by_cases h0 : bytes.length = 0
  · obtain rfl : bytes = [] := List.length_eq_zero.mp h0
    simp [chunksOf, chunksGo]
  · by_cases h1 : bytes.length < S
    · simp only [h0, if_false, h1, if_true]
      simp
      omega
    · simp only [h0, if_false, h1]
      simp [chunksOf_length]
      omega

/-- C2 witness: the amended characterization evaluated at S = 2 and
the three-byte buffer of the spec's scenario. -/
theorem transmute_many_atLeast_characterization_witness :
    ((∃ vs, safe_transmute_many_permissive 2 [1, 2, 3] = .ok vs) ↔
      (2 ≤ ([1, 2, 3] : List Nat).length ∨ ([1, 2, 3] : List Nat).length = 0))
  ∧ (∀ vs, safe_transmute_many_permissive 2 [1, 2, 3] = .ok vs →
      vs.length = ([1, 2, 3] : List Nat).length / 2)
  ∧ (2 ≤ ([1, 2, 3] : List Nat).length →
      ∃ vs, safe_transmute_many_permissive 2 [1, 2, 3] = .ok vs) :=
  transmute_many_atLeast_characterization 2 [1, 2, 3] (by decide)

/-- C4: for element size S > 0, an empty buffer fails with
`notEnoughBytes` under the SingleValue and Exact policies, while
under the AtLeast policy it succeeds with zero elements and no
error. -/
theorem empty_buffer_policy_behaviour (S : Nat) (h : 0 < S) :
    transmute_one S [] .singleValue = .error (.notEnoughBytes S 0)
  ∧ transmute_many S [] .exact = .error (.notEnoughBytes S 0)
  ∧ transmute_many S [] .atLeast = .ok [] := by
  unfold transmute_one transmute_many check_length
  simp [h, chunksOf, chunksGo]

/-- C4 witness: the empty-buffer behaviour evaluated at S = 2. -/
theorem empty_buffer_policy_behaviour_witness :
    transmute_one 2 [] .singleValue = .error (.notEnoughBytes 2 0)
  ∧ transmute_many 2 [] .exact = .error (.notEnoughBytes 2 0)
  ∧ transmute_many 2 [] .atLeast = .ok [] :=
  empty_buffer_policy_behaviour 2 (by decide)

/-- C3: for every in-memory value v of a trivially transmutable type
of size S — identified with its byte pattern of length S — viewing
it as bytes and transmuting one value back under the Exact policy
returns v; the to-bytes direction is total by construction. -/
theorem round_trip_one (S : Nat) (v : List Nat) (h : v.length = S) :
    transmute_one S (transmute_to_bytes v) .exact = .ok v := by
  subst h
  simp [transmute_one, transmute_to_bytes, check_length]

/-- C3 witness: the round trip evaluated at a two-byte value. -/
theorem round_trip_one_witness :
    transmute_one 2 (transmute_to_bytes [3, 4]) .exact = .ok [3, 4] :=
  round_trip_one 2 [3, 4] (by decide)

/-- C5: for every start address and power-of-two alignment, the
alignment checker answers `aligned` exactly when the address already
satisfies the requirement, an alignment of 1 is always `aligned`,
and a misaligned address yields the smallest non-negative offset
whose addition realigns the address, that offset lying in
[0, alignment). -/
theorem alignment_checker_correct (addr a : Nat) (hpow : ∃ k, a = 2 ^ k) :
    (a = 1 → check_alignment addr a = .aligned)
  ∧ (check_alignment addr a = .aligned ↔ addr % a = 0)
  ∧ (addr % a ≠ 0 → ∃ off, check_alignment addr a = .misaligned off ∧ 0 < off ∧ off < a ∧
      (addr + off) % a = 0 ∧ ∀ m, m < off → (addr + m) % a ≠ 0) := by
  have ha : 0 < a := by
    obtain ⟨k, rfl⟩ := hpow
    positivity
  refine ⟨?_, ?_, ?_⟩
  · rintro rfl
    simp [check_alignment, Nat.mod_one]
  · unfold check_alignment
    by_cases h : addr % a = 0 <;> simp [h]
  · intro hne
    have hr : addr % a < a := Nat.mod_lt _ ha
    have hrpos : 0 < addr % a := Nat.pos_of_ne_zero hne
    refine ⟨a - addr % a, ?_, by omega, by omega, ?_, ?_⟩
    · simp [check_alignment, hne]
    · conv_lhs => rw [Nat.add_mod]
      rw [Nat.mod_eq_of_lt (show a - addr % a < a by omega)]
      rw [show addr % a + (a - addr % a) = a by omega, Nat.mod_self]
    · intro m hm
      rw [Nat.add_mod, Nat.mod_eq_of_lt (show m < a by omega)]
      rw [Nat.mod_eq_of_lt (show addr % a + m < a by omega)]
      omega

/-- C5 witness: the alignment checker evaluated at address 5 with
alignment 4. -/
theorem alignment_checker_correct_witness :
    ((4 : Nat) = 1 → check_alignment 5 4 = .aligned)
  ∧ (check_alignment 5 4 = .aligned ↔ 5 % 4 = 0)
  ∧ ((5 : Nat) % 4 ≠ 0 → ∃ off, check_alignment 5 4 = .misaligned off ∧ 0 < off ∧ off < 4 ∧
      (5 + off) % 4 = 0 ∧ ∀ m, m < off → (5 + m) % 4 ≠ 0) :=
  alignment_checker_correct 5 4 ⟨2, rfl⟩

theorem check_bool_bytes_ok (l : List Nat) (i : Nat) (h : ∀ b ∈ l, bool_legal b = true) :
    check_bool_bytes l i = .ok () := by
  induction l generalizing i with
  | nil => rfl
  | cons b rest ih =>
      have hb : bool_legal b = true := h b (List.mem_cons_self b rest)
      simp only [check_bool_bytes, hb, if_true]
      exact ih (i + 1) fun x hx => h x (List.mem_cons_of_mem b hx)

theorem check_bool_bytes_err (l : List Nat) (j : Nat) (hj : j < l.length)
    (hbad : bool_legal (l.getD j 0) = false)
    (hgood : ∀ m, m < j → bool_legal (l.getD m 0) = true) :
    ∀ i, check_bool_bytes l i = .error (.invalidValue (i + j) (l.getD j 0)) := by
  induction l generalizing j with
  | nil => simp at hj
  | cons b rest ih =>
      intro i
      cases j with
      | zero =>
          simp only [List.getD_cons_zero] at hbad ⊢
          simp [check_bool_bytes, hbad]
      | succ j =>
          have hb : bool_legal b = true := by
            have := hgood 0 (Nat.succ_pos j)
            simpa using this
          have hbad2 : bool_legal (rest.getD j 0) = false := by
            simpa using hbad
          have hgood2 : ∀ m, m < j → bool_legal (rest.getD m 0) = true := by
            intro m hm
            have := hgood (m + 1) (by omega)
            simpa using this
          have hj2 : j < rest.length := by
            simp only [List.length_cons] at hj
            omega
          have hrec := ih j hj2 hbad2 hgood2 (i + 1)
          simp only [check_bool_bytes, hb, if_true, List.getD_cons_succ]
          rw [hrec, show i + 1 + j = i + (j + 1) by omega]

/-- C6: for the single-byte boolean target, a buffer made solely of
the two legal encodings transmutes successfully to the booleans it
encodes, and a buffer whose first illegal byte sits at offset i
fails with `invalidValue` carrying that offset and the raw byte. -/
theorem bool_validity (bytes : List Nat) :
    ((∀ b ∈ bytes, bool_legal b = true) →
      transmute_bool_many bytes = .ok (bytes.map (fun b => b == 1)))
  ∧ (∀ i, i < bytes.length → bool_legal (bytes.getD i 0) = false →
      (∀ j, j < i → bool_legal (bytes.getD j 0) = true) →
      transmute_bool_many bytes = .error (.invalidValue i (bytes.getD i 0))) := by
  constructor
  · intro h
    simp [transmute_bool_many, check_bool_bytes_ok bytes 0 h]
  · intro i hi hbad hgood
    have h0 := check_bool_bytes_err bytes i hi hbad hgood 0
    simp only [Nat.zero_add] at h0
    simp [transmute_bool_many, h0]

/-- C6 witness: the buffer [0, 1, 7] carries its first (and only)
illegal byte 7 at offset 2 and is rejected there. -/
theorem bool_validity_witness :
    transmute_bool_many [0, 1, 7] = .error (.invalidValue 2 (([0, 1, 7] : List Nat).getD 2 0)) :=
  (bool_validity [0, 1, 7]).2 2 (by decide) (by decide) (by decide)

/-- C7: for a target type of power-of-two alignment a > 1, a buffer
whose start address is offset by 1 from that alignment fails with an
unaligned-kind error whose offset-to-next-valid is a - 1, strictly
between 0 and the alignment, under every policy and buffer
length. -/
theorem misaligned_by_one_unaligned (addr a S : Nat) (bytes : List Nat) (policy : GuardPolicy)
    (hpow : ∃ k, a = 2 ^ k) (ha : 1 < a) (haddr : addr % a = 1) :
    ∃ e, transmute_many_at addr a S bytes policy = .error e ∧
      e.unalignedOffset = some (a - 1) ∧ 0 < a - 1 ∧ a - 1 < a := by
  have hca : check_alignment addr a = .misaligned (a - 1) := by
    simp [check_alignment, haddr]
  unfold transmute_many_at
  rw [hca]
  by_cases hlen : bytes.length - (a - 1) < S
  · refine ⟨.unalignedInsufficient (a - 1) S (bytes.length - (a - 1)), ?_, rfl, by omega, by omega⟩
    simp [hlen]
  · refine ⟨.unaligned (a - 1), ?_, rfl, by omega, by omega⟩
    simp [hlen]

/-- C7 witness: address 1 against alignment 2 under the Exact
policy. -/
theorem misaligned_by_one_unaligned_witness :
    ∃ e, transmute_many_at 1 2 2 [] .exact = .error e ∧
      e.unalignedOffset = some (2 - 1) ∧ 0 < 2 - 1 ∧ (2 : Nat) - 1 < 2 :=
  misaligned_by_one_unaligned 1 2 2 [] .exact ⟨1, rfl⟩ (by decide) (by decide)

/-- C8: a buffer that is misaligned (offset-to-next-valid k) and
whose usable length after realignment, len - k, cannot hold one
element fails with the single combined
unaligned-plus-insufficient-data diagnosis, carrying the offset and
the size arithmetic reapplied to the reduced length — not with two
separate errors. -/
theorem misaligned_insufficient_combined (addr a S : Nat) (bytes : List Nat)
    (policy : GuardPolicy) (k : Nat)
    (hmis : check_alignment addr a = .misaligned k)
    (hshort : bytes.length - k < S) :
    transmute_many_at addr a S bytes policy =
      .error (.unalignedInsufficient k S (bytes.length - k)) := by
  unfold transmute_many_at
  rw [hmis]
  simp [hshort]

/-- C8 witness: address 1 against alignment 4 with element size 8 on
a five-byte buffer — two usable bytes after the three-byte skip,
fewer than one element. -/
theorem misaligned_insufficient_combined_witness :
    transmute_many_at 1 4 8 [0, 0, 0, 0, 0] .atLeast =
      .error (.unalignedInsufficient 3 8 (([0, 0, 0, 0, 0] : List Nat).length - 3)) :=
  misaligned_insufficient_combined 1 4 8 [0, 0, 0, 0, 0] .atLeast 3 (by decide) (by decide)

theorem concat_bytes_length (S : Nat) (vs : List (List Nat))
    (h : ∀ u ∈ vs, u.length = S) : (concat_bytes vs).length = S * vs.length := by
  induction vs with
  | nil => simp [concat_bytes]
  | cons u us ih =>
      have hu : u.length = S := h u (List.mem_cons_self u us)
      have hus := ih fun x hx => h x (List.mem_cons_of_mem u hx)
      simp only [concat_bytes, List.length_append, List.length_cons, hu, hus]
      ring

/-- C10: the to-bytes operations on a single value, a slice and a
vector are total — they return a byte list, with no error path in
their types — and the result's length is S for one value of size S,
and S times the element count for a slice or vector of values of
size S. -/
theorem to_bytes_total_lengths (S : Nat) (v : List Nat) (vs : List (List Nat))
    (hv : v.length = S) (hvs : ∀ u ∈ vs, u.length = S) :
    (guarded_transmute_to_bytes v).length = S
  ∧ (guarded_transmute_to_bytes_many vs).length = S * vs.length
  ∧ (guarded_transmute_to_bytes_vec vs).length = S * vs.length :=
  ⟨hv, concat_bytes_length S vs hvs, concat_bytes_length S vs hvs⟩

/-- C10 witness: the lengths evaluated at a two-byte value and three
two-byte elements. -/
theorem to_bytes_total_lengths_witness :
    (guarded_transmute_to_bytes [1, 2]).length = 2
  ∧ (guarded_transmute_to_bytes_many [[1, 2], [3, 4], [5, 6]]).length =
      2 * ([[1, 2], [3, 4], [5, 6]] : List (List Nat)).length
  ∧ (guarded_transmute_to_bytes_vec [[1, 2], [3, 4], [5, 6]]).length =
      2 * ([[1, 2], [3, 4], [5, 6]] : List (List Nat)).length :=
  to_bytes_total_lengths 2 [1, 2] [[1, 2], [3, 4], [5, 6]] (by decide) (by decide)

end SafeTransmute
